import Mathlib

/-!
Verification of `mirror_gitlab_to_github.py` (Plutometry/gitlab-migrator).

A shallow embedding of the script: the GitLab listing loop, the GitHub
repository-creation call, the per-project mirroring workflow of `main`,
and the startup configuration check.  Network responses and the exit
codes of the shelled-out `git` commands are supplied as explicit inputs,
so every definition is an executable function of the program's inputs.
-/

namespace Migrator

/-! ## Source API client: `list_all_gitlab_projects` -/

/-- The query parameters of one GitLab listing request, as built by
`gitlab_get("/projects", params={...})` in `list_all_gitlab_projects`. -/
structure GitlabListRequest where
  page : Nat
  perPage : Nat
  orderBy : String
  sort : String
  simple : Bool
  membership : Bool
deriving DecidableEq

/-- The request issued for a given page number: `per_page=100`,
`order_by="id"`, `sort="asc"`, `simple=True`, `membership=False`. -/
def listRequest (page : Nat) : GitlabListRequest :=
  { page := page, perPage := 100, orderBy := "id", sort := "asc",
    simple := true, membership := false }

/-- The `while True` loop of `list_all_gitlab_projects`.  `serve` maps a
page number to the batch the server returns for it; the loop accumulates
items and records the requests it issues.  The loop in the source has no
bound, so the embedding takes explicit fuel; all theorems quantify over
sufficient fuel. -/
def listLoop (serve : Nat → List α) : Nat → Nat → List α × List GitlabListRequest
  | 0, _ => ([], [])
  | fuel + 1, page =>
    let batch := serve page
    if batch.isEmpty then
      ([], [listRequest page])
    else if batch.length < 100 then
      (batch, [listRequest page])
    else
      let rest := listLoop serve fuel (page + 1)
      (batch ++ rest.1, listRequest page :: rest.2)

/-- `list_all_gitlab_projects`: run the listing loop starting at page 1.
Returns the accumulated projects and the list of issued requests. -/
def list_all_gitlab_projects (serve : Nat → List α) (fuel : Nat) :
    List α × List GitlabListRequest :=
  listLoop serve fuel 1

/-! ## Destination API client: `create_github_repo` -/

/-- Errors the call can raise: `requests.HTTPError` from
`raise_for_status()`, or a JSON/key error when the success body has no
`clone_url` field. -/
inductive ApiError
  | httpError (status : Nat)
  | jsonError
deriving DecidableEq

/-- A GitHub API response as the script consumes it: the status code,
the raw body text (matched for `"name already exists"`), and the
`clone_url` field of the parsed JSON body when present. -/
structure GhResponse where
  status : Nat
  text : String
  cloneUrl : Option String
deriving DecidableEq

/-- Python's `needle in hay` substring test. -/
def strContains (hay needle : String) : Bool :=
  hay.data.tails.any (fun t => needle.data.isPrefixOf t)

/-- The deterministically constructed clone URL
`f"https://github.com/{GITHUB_ORG}/{name}.git"`. -/
def githubCloneUrl (org name : String) : String :=
  "https://github.com/" ++ org ++ "/" ++ name ++ ".git"

/-- The name-collision test of the source:
`r.status_code == 422 and "name already exists" in r.text`. -/
def isNameConflict (r : GhResponse) : Bool :=
  r.status == 422 && strContains r.text "name already exists"

/-- `create_github_repo`, as a function of the response the POST gets:
a 422 whose body mentions `name already exists` returns the constructed
clone URL; `raise_for_status()` raises `HTTPError` for any status in
[400, 600); otherwise the `clone_url` field of the body is returned
(a missing field raises a lookup error, not an `HTTPError`). -/
def create_github_repo (org name : String) (r : GhResponse) : Except ApiError String :=
  if isNameConflict r then
    .ok (githubCloneUrl org name)
  else if 400 ≤ r.status ∧ r.status < 600 then
    .error (.httpError r.status)
  else
    match r.cloneUrl with
    | some u => .ok u
    | none => .error .jsonError

/-! ## Project descriptors -/

/-- A JSON value restricted to the shapes the boolean project flags can
take: `null` or a boolean. -/
inductive JBVal
  | jnull
  | jbool (b : Bool)
deriving DecidableEq

/-- Python truthiness of `p.get(key)` / `p.get(key, False)` for a flag
field: an absent key (`none`) and `null` are falsy, a boolean is
itself. -/
def truthy : Option JBVal → Bool
  | none => false
  | some .jnull => false
  | some (.jbool b) => b

/-- The fields of a GitLab project descriptor that `main` reads.
`path_with_namespace`, `path` and `http_url_to_repo` are accessed with
`p[...]` and must be present; `archived`, `public` and `description`
are accessed with `p.get(...)` and may be absent (`none`) or `null`. -/
structure Project where
  path_with_namespace : String
  path : String
  http_url_to_repo : String
  archived : Option JBVal
  public : Option JBVal
  description : Option (Option String)

/-- The per-character expansion of `full_path.replace("/", "__")`. -/
def encSlash (c : Char) : List Char :=
  if c = '/' then ['_', '_'] else [c]

/-- Python's `full_path.replace("/", "__")` (the pattern is a single
character, so it is a per-character expansion). -/
def replaceSlash (s : String) : String :=
  ⟨s.data.flatMap encSlash⟩

/-- The flat local mirror directory name
`full_path.replace("/", "__") + ".git"` (the component joined under
`CLONE_BASE`). -/
def localDirName (fullPath : String) : String :=
  replaceSlash fullPath ++ ".git"

/-- The local mirror directory name of a project. -/
def projectDir (p : Project) : String :=
  localDirName p.path_with_namespace

/-- The `private` flag of the creation payload:
`private=not p.get("public", False)`. -/
def ghPrivate (p : Project) : Bool :=
  !(truthy p.public)

/-- The description passed to `create_github_repo`:
`p.get("description") or f"Mirror of {full_path} from {GITLAB_URL}"`
(Python `or`: an absent, `null` or empty description falls back to the
generated string). -/
def effDesc (gitlabUrl : String) (p : Project) : String :=
  match p.description with
  | some (some s) =>
    if s = "" then "Mirror of " ++ p.path_with_namespace ++ " from " ++ gitlabUrl
    else s
  | _ => "Mirror of " ++ p.path_with_namespace ++ " from " ++ gitlabUrl

/-! ## Mirror orchestrator: `main` -/

/-- The observable side effects of one loop iteration of `main`, in
program order: the shelled-out `git` commands, the GitHub creation
call, and the `time.sleep(1)` throttle. -/
inductive Action
  | cloneCmd (url dir : String)
  | fetchCmd (dir : String)
  | createRepo (name desc : String) (priv : Bool)
  | remoteRemove (dir : String)
  | remoteAdd (dir url : String)
  | pushMirror (dir : String)
  | sleep (secs : Nat)
deriving DecidableEq, BEq

/-- The logged reason when `main` hits a `continue` for a project. -/
inductive SkipReason
  | archived
  | cloneError
  | fetchError
  | createError
  | remoteAddError
  | pushError
deriving DecidableEq

/-- Terminal state of one project's processing. -/
inductive ProjResult
  | completed
  | skipped (r : SkipReason)
deriving DecidableEq

/-- The outcomes the environment hands each step of one project's
iteration: exit codes of `git clone` / `git fetch` / `git remote add` /
`git push --mirror` (`true` = exit status 0), and the result of the
GitHub creation call. -/
structure StepOut where
  cloneOk : Bool
  fetchOk : Bool
  createRes : Except ApiError String
  remoteAddOk : Bool
  pushOk : Bool

/-- Steps 2-3 of an iteration of `main`, entered after the local mirror
was synced: create the GitHub repo (an exception skips the project),
remove the stale `github` remote ignoring its exit code, add the fresh
remote, mirror-push, and sleep one second after full success. -/
def afterSync (gitlabUrl : String) (p : Project) (o : StepOut) (dir : String)
    (acts : List Action) : ProjResult × List Action :=
  let acts1 := acts ++ [Action.createRepo p.path (effDesc gitlabUrl p) (ghPrivate p)]
  match o.createRes with
  | .error _ => (.skipped .createError, acts1)
  | .ok url =>
    let acts2 := acts1 ++ [Action.remoteRemove dir, Action.remoteAdd dir url]
    if o.remoteAddOk then
      let acts3 := acts2 ++ [Action.pushMirror dir]
      if o.pushOk then
        (.completed, acts3 ++ [Action.sleep 1])
      else
        (.skipped .pushError, acts3)
    else
      (.skipped .remoteAddError, acts2)

/-- One iteration of the `for p in projects` loop of `main`.  `fs` is
the set of local mirror directories that exist under `CLONE_BASE`
(threaded, because `git clone` creates the directory); the returned
list is the updated set.  A failed clone leaves no directory behind. -/
def processProject (gitlabUrl : String) (fs : List String) (p : Project)
    (o : StepOut) : ProjResult × List Action × List String :=
  if truthy p.archived then
    (.skipped .archived, [], fs)
  else
    let dir := projectDir p
    if fs.contains dir then
      if o.fetchOk then
        let r := afterSync gitlabUrl p o dir [Action.fetchCmd dir]
        (r.1, r.2, fs)
      else
        (.skipped .fetchError, [Action.fetchCmd dir], fs)
    else
      if o.cloneOk then
        let r := afterSync gitlabUrl p o dir [Action.cloneCmd p.http_url_to_repo dir]
        (r.1, r.2, dir :: fs)
      else
        (.skipped .cloneError, [Action.cloneCmd p.http_url_to_repo dir], fs)

/-- The full project loop of `main`: per-project terminal states, the
concatenated action trace, and the final directory set. -/
def mainLoop (gitlabUrl : String) :
    List String → List (Project × StepOut) → List ProjResult × List Action × List String
  | fs, [] => ([], [], fs)
  | fs, (p, o) :: rest =>
    let r := processProject gitlabUrl fs p o
    let rs := mainLoop gitlabUrl r.2.2 rest
    (r.1 :: rs.1, r.2.1 ++ rs.2.1, rs.2.2)

/-- `main` after a successful listing: process every project and return
the per-project results, the action trace, and the process exit status.
`main` never calls `sys.exit`, so the status is 0 regardless of how
many projects were skipped. -/
def mainRun (gitlabUrl : String) (fs0 : List String)
    (ps : List (Project × StepOut)) : List ProjResult × List Action × Nat :=
  let r := mainLoop gitlabUrl fs0 ps
  (r.1, r.2.1, 0)

/-! ## Startup configuration -/

/-- Python's `s.rstrip("/")`: drop every trailing `/`. -/
def rstripSlash (s : String) : String :=
  ⟨(s.data.reverse.dropWhile (fun c => c == '/')).reverse⟩

/-- The environment variables the script reads at startup.  `none`
models an absent variable. -/
structure Env where
  gitlabUrl : Option String
  gitlabToken : Option String
  githubOrg : Option String
  githubToken : Option String

/-- Python truthiness of a string: the empty string is falsy. -/
def pyTruthy (s : String) : Bool :=
  !(s == "")

/-- Truthiness of `os.environ.get(...)`: `None` (absent) is falsy. -/
def pyTruthyOpt : Option String → Bool
  | none => false
  | some s => pyTruthy s

/-- The `all([GITLAB_URL, GITLAB_TOKEN, GITHUB_ORG, GITHUB_TOKEN])`
check, with `GITLAB_URL = os.environ.get("GITLAB_URL", "").rstrip("/")`
already stripped before the check. -/
def configOk (e : Env) : Bool :=
  pyTruthy (rstripSlash (e.gitlabUrl.getD "")) && pyTruthyOpt e.gitlabToken &&
    pyTruthyOpt e.githubOrg && pyTruthyOpt e.githubToken

/-- The whole process: if the configuration check fails it exits with
status 1 having performed no action at all; otherwise it runs `main`
and exits with its status.  Returns (exit status, action trace). -/
def program (e : Env) (fs0 : List String) (ps : List (Project × StepOut)) :
    Nat × List Action :=
  if configOk e then
    let r := mainRun (rstripSlash (e.gitlabUrl.getD "")) fs0 ps
    (r.2.2, r.2.1)
  else
    (1, [])

/-! ## Concrete fixtures used by witnesses and counterexamples -/

/-- A concrete source base URL. -/
def gl0 : String := "https://gitlab.example"

/-- A server whose page 1 is full (100 items) and whose page 2 is
short. -/
def serveW : Nat → List Nat :=
  fun p => if p = 1 then List.range 100 else if p = 2 then [1000] else []

/-- A server whose single short page already contains a duplicate. -/
def serveDup : Nat → List Nat :=
  fun p => if p = 1 then [7, 7] else []

/-- Project whose full path collides with `pB` under
`replace("/", "__")`. -/
def pA : Project := ⟨"a/b__c", "b__c", "ua", none, none, none⟩

/-- Project whose full path collides with `pA` under
`replace("/", "__")`. -/
def pB : Project := ⟨"a__b/c", "c", "ub", none, none, none⟩

/-- An ordinary non-archived project. -/
def pC : Project := ⟨"g/c", "c", "uc", none, none, none⟩

/-- An archived project. -/
def pArch : Project := ⟨"g/arch", "arch", "uarch", some (.jbool true), none, none⟩

/-- Every step succeeds. -/
def oGood : StepOut := ⟨true, true, .ok "g", true, true⟩

/-- The clone fails; everything else would succeed. -/
def oBadClone : StepOut := ⟨false, true, .ok "g", true, true⟩

/-- The fetch fails; everything else would succeed. -/
def oFetchFail : StepOut := ⟨true, false, .ok "g", true, true⟩

/-- A conflict response: 422 with the marker text in the body. -/
def rConflict : GhResponse :=
  ⟨422, "Validation Failed: name already exists on this account", none⟩

/-- A successful creation response carrying the canonical clone URL. -/
def rOkW : GhResponse := ⟨201, "Created", some (githubCloneUrl "acme" "proj")⟩

/-- A concrete environment whose `GITLAB_URL` is only slashes. -/
def envW : Env := ⟨some "///", some "t", some "o", some "k"⟩

/-! ## Pagination lemmas -/

theorem listLoop_step (serve : Nat → List α) (f page : Nat)
    (h1 : ¬ (serve page).isEmpty = true) (h2 : ¬ (serve page).length < 100) :
    listLoop serve (f + 1) page =
      (serve page ++ (listLoop serve f (page + 1)).1,
        listRequest page :: (listLoop serve f (page + 1)).2) := by
  simp only [listLoop]
  rw [if_neg h1, if_neg h2]

theorem listLoop_spec (serve : Nat → List α) :
    ∀ (m s fuel : Nat),
      (∀ i, s ≤ i → i < s + m → 100 ≤ (serve i).length) →
      (serve (s + m)).length < 100 →
      m + 1 ≤ fuel →
      listLoop serve fuel s =
        (((List.range' s (m + 1)).map serve).flatten,
          (List.range' s (m + 1)).map listRequest) := by
  intro m
  induction m with
  | zero =>
    intro s fuel _ hshort hfuel
    obtain ⟨f, rfl⟩ : ∃ f, fuel = f + 1 := ⟨fuel - 1, by omega⟩
    simp only [Nat.add_zero] at hshort
    by_cases hemp : (serve s).isEmpty
    · have hnil : serve s = [] := List.isEmpty_iff.mp hemp
      simp [listLoop, hemp, hnil, List.range'_one]
    · simp [listLoop, hemp, hshort, List.range'_one]
  | succ m ih =>
    intro s fuel hbig hshort hfuel
    obtain ⟨f, rfl⟩ : ∃ f, fuel = f + 1 := ⟨fuel - 1, by omega⟩
    have hs : 100 ≤ (serve s).length := hbig s le_rfl (by omega)
    have hne : ¬ (serve s).isEmpty = true := by
      cases h : serve s with
      | nil => rw [h] at hs; simp at hs
      | cons a l => simp [h]
    have hnotshort : ¬ (serve s).length < 100 := by omega
    have hrec : listLoop serve f (s + 1) =
        (((List.range' (s + 1) (m + 1)).map serve).flatten,
          (List.range' (s + 1) (m + 1)).map listRequest) := by
      apply ih
      · intro i h1 h2
        exact hbig i (by omega) (by omega)
      · have h : s + 1 + m = s + (m + 1) := by omega
        rw [h]; exact hshort
      · omega
    rw [listLoop_step serve f s hne hnotshort, hrec]
    conv_rhs => rw [List.range'_succ]
    simp only [List.map_cons, List.flatten_cons]

/-- Claim C1: when the pages the source serves are of size at least 100
up to page `k`, and page `k` is the first page with fewer than 100
items (possibly zero), `list_all_gitlab_projects` issues exactly the
requests for pages 1, 2, ..., k — each with page size 100, ordered
ascending by id — and returns the concatenation of the pages' items in
the order received. -/
theorem list_all_pagination (serve : Nat → List α) (k fuel : Nat)
    (hk : 1 ≤ k)
    (hbig : ∀ i, 1 ≤ i → i < k → 100 ≤ (serve i).length)
    (hshort : (serve k).length < 100)
    (hfuel : k ≤ fuel) :
    list_all_gitlab_projects serve fuel =
      (((List.range' 1 k).map serve).flatten, (List.range' 1 k).map listRequest) := by
  obtain ⟨m, rfl⟩ : ∃ m, k = m + 1 := ⟨k - 1, by omega⟩
  unfold list_all_gitlab_projects
  apply listLoop_spec
  · intro i h1 h2
    exact hbig i h1 (by omega)
  · have h : 1 + m = m + 1 := by omega
    rw [h]; exact hshort
  · omega

/-- Witness for C1 on a concrete server: page 1 carries 100 items,
page 2 carries one, so 2 requests are issued and the result is the
concatenation of both pages. -/
theorem list_all_pagination_witness :
    list_all_gitlab_projects serveW 2 =
      (List.range 100 ++ [1000], [listRequest 1, listRequest 2]) := by
  rw [list_all_pagination serveW 2 2 (by omega)
    (by
      intro i h1 h2
      have h : i = 1 := by omega
      subst h
      decide)
    (by decide) (by omega)]
  decide

/-- Claim C6 counterexample: the function performs no deduplication.
A server whose first (short) page is `[7, 7]` makes
`list_all_gitlab_projects` return `[7, 7]`, in which the descriptor `7`
appears twice. -/
theorem list_all_duplicates_counterexample :
    (list_all_gitlab_projects serveDup 1).1 = [7, 7] ∧
      ¬ (list_all_gitlab_projects serveDup 1).1.Nodup := by
  decide

/-- Claim C6 (amended): `list_all_gitlab_projects` returns exactly the
concatenation of the served pages, so the returned collection is
duplicate-free if and only if the source serves no descriptor twice
across (or within) the fetched pages. -/
theorem list_all_nodup_iff (serve : Nat → List α) (k fuel : Nat)
    (hk : 1 ≤ k)
    (hbig : ∀ i, 1 ≤ i → i < k → 100 ≤ (serve i).length)
    (hshort : (serve k).length < 100)
    (hfuel : k ≤ fuel) :
    ((list_all_gitlab_projects serve fuel).1.Nodup ↔
      (((List.range' 1 k).map serve).flatten).Nodup) := by
  obtain ⟨m, rfl⟩ : ∃ m, k = m + 1 := ⟨k - 1, by omega⟩
  unfold list_all_gitlab_projects
  rw [listLoop_spec serve m 1 fuel
    (by intro i h1 h2; exact hbig i h1 (by omega))
    (by
      have h : 1 + m = m + 1 := by omega
      rw [h]
      exact hshort)
    (by omega)]

/-- Witness for the amended C6 at the duplicate-serving server. -/
theorem list_all_nodup_iff_witness :
    ((list_all_gitlab_projects serveDup 1).1.Nodup ↔
      (((List.range' 1 1).map serveDup).flatten).Nodup) :=
  list_all_nodup_iff serveDup 1 1 (by omega)
    (by intro i h1 h2; omega) (by decide) (by omega)

/-- Claim C2: a 422 response whose body indicates the name already
exists makes `create_github_repo` return the deterministically
constructed clone URL without raising; consequently two calls with the
same name — the second answered by such a conflict, the first answered
either by a conflict as well or by a success whose body reports the
canonical clone URL for that name (GitHub's behaviour) — return the
same clone URL.  Any other response with an error status (400-599,
the range `raise_for_status` raises on) raises an `HTTPError`. -/
theorem create_github_repo_conflict_idempotent (org name : String)
    (r1 r2 : GhResponse)
    (h2 : isNameConflict r2 = true)
    (h1 : isNameConflict r1 = true ∨
      (r1.status < 400 ∧ r1.cloneUrl = some (githubCloneUrl org name))) :
    create_github_repo org name r2 = .ok (githubCloneUrl org name) ∧
      create_github_repo org name r1 = create_github_repo org name r2 ∧
      ∀ r : GhResponse, isNameConflict r = false → 400 ≤ r.status → r.status < 600 →
        create_github_repo org name r = .error (.httpError r.status) := by
  have hc2 : create_github_repo org name r2 = .ok (githubCloneUrl org name) := by
    simp [create_github_repo, h2]
  refine ⟨hc2, ?_, ?_⟩
  · rw [hc2]
    rcases h1 with h | ⟨hlt, hurl⟩
    · simp [create_github_repo, h]
    · have hnc : isNameConflict r1 = false := by
        unfold isNameConflict
        have h422 : (r1.status == 422) = false := by
          rw [beq_eq_false_iff_ne]; omega
        rw [h422, Bool.false_and]
      have hnr : ¬ (400 ≤ r1.status ∧ r1.status < 600) := by omega
      simp [create_github_repo, hnc, hnr, hurl]
  · intro r hc h4 h6
    simp only [create_github_repo, hc, Bool.false_eq_true, if_false]
    rw [if_pos ⟨h4, h6⟩]

/-- Witness for C2: a concrete successful first call (whose body
reports the canonical URL) followed by a concrete conflict return the
same clone URL, and the conflict returns the constructed URL. -/
theorem create_github_repo_witness :
    create_github_repo "acme" "proj" rConflict = .ok (githubCloneUrl "acme" "proj") ∧
      create_github_repo "acme" "proj" rOkW = create_github_repo "acme" "proj" rConflict := by
  have h := create_github_repo_conflict_idempotent "acme" "proj" rOkW rConflict
    (by decide) (Or.inr (by decide))
  exact ⟨h.1, h.2.1⟩

/-- Claim C8: since trailing slashes are stripped from `GITLAB_URL`
before the `all(...)` check, a value consisting only of slashes — like
an empty or absent one — fails the check and the process exits with
status 1 having performed no work. -/
theorem slash_only_url_exits (e : Env) (fs0 : List String)
    (ps : List (Project × StepOut))
    (h : ∀ c ∈ (e.gitlabUrl.getD "").data, c = '/') :
    program e fs0 ps = (1, []) := by
  have hr : rstripSlash (e.gitlabUrl.getD "") = "" := by
    unfold rstripSlash
    have hd : (e.gitlabUrl.getD "").data.reverse.dropWhile (fun c => c == '/') = [] := by
      rw [List.dropWhile_eq_nil_iff]
      intro x hx
      have hx' := h x (List.mem_reverse.mp hx)
      simp [hx']
    rw [hd]
    rfl
  have hcfg : configOk e = false := by
    unfold configOk
    rw [hr]
    simp [pyTruthy]
  simp [program, hcfg]

/-- Witness for C8: `GITLAB_URL="///"` with all other variables present
exits with status 1 and an empty action trace. -/
theorem slash_only_url_exits_witness :
    program envW [] [] = (1, []) :=
  slash_only_url_exits envW [] [] (by decide)

/-- Claim C4: a project whose archived flag is `true` is recorded as
skipped with reason `archived`, produces no clone, fetch, creation,
remote or push action, and leaves the local directory set unchanged. -/
theorem archived_skip (gl : String) (fs : List String) (p : Project) (o : StepOut)
    (h : p.archived = some (JBVal.jbool true)) :
    processProject gl fs p o = (.skipped .archived, [], fs) := by
  simp [processProject, truthy, h]

/-- Witness for C4 at the concrete archived project. -/
theorem archived_skip_witness :
    processProject gl0 [] pArch oGood = (.skipped .archived, [], []) :=
  archived_skip gl0 [] pArch oGood rfl

/-- Claim C10: a descriptor lacking the `archived` key, or carrying a
falsy value (`false` or `null`) for it, proceeds into the sync
workflow — its first action is the fetch or clone command — and the
`archived` skip happens only for the value `true`. -/
theorem not_archived_proceeds (gl : String) (fs : List String) (p : Project)
    (o : StepOut)
    (h : p.archived = none ∨ p.archived = some JBVal.jnull ∨
      p.archived = some (JBVal.jbool false)) :
    (processProject gl fs p o).1 ≠ ProjResult.skipped SkipReason.archived ∧
      ((processProject gl fs p o).2.1.head? = some (Action.fetchCmd (projectDir p)) ∨
        (processProject gl fs p o).2.1.head? =
          some (Action.cloneCmd p.http_url_to_repo (projectDir p))) := by
  have ha : truthy p.archived = false := by
    rcases h with h | h | h <;> simp [truthy, h]
  obtain ⟨co, fo, cr, ro, po⟩ := o
  by_cases hm : projectDir p ∈ fs <;>
    cases co <;> cases fo <;> cases ro <;> cases po <;> rcases cr with e | u <;>
    simp [processProject, afterSync, ha, hm]

/-- Witness for C10 at a descriptor with no `archived` key. -/
theorem not_archived_proceeds_witness :
    (processProject gl0 [] pC oGood).1 ≠ ProjResult.skipped SkipReason.archived ∧
      ((processProject gl0 [] pC oGood).2.1.head? =
          some (Action.fetchCmd (projectDir pC)) ∨
        (processProject gl0 [] pC oGood).2.1.head? =
          some (Action.cloneCmd pC.http_url_to_repo (projectDir pC))) :=
  not_archived_proceeds gl0 [] pC oGood (Or.inl rfl)

/-- Claim C9: every repository-creation action a project's processing
emits carries `private = not p.get("public", False)`, so a descriptor
lacking the `public` key (or carrying `false` or `null`) is created
private, and the destination is non-private exactly when the
descriptor contains `public` with value `true`. -/
theorem create_private_flag (gl : String) (fs : List String) (p : Project)
    (o : StepOut) :
    (∀ n d priv, Action.createRepo n d priv ∈ (processProject gl fs p o).2.1 →
      priv = ghPrivate p) ∧
      ((p.public = none ∨ p.public = some JBVal.jnull ∨
        p.public = some (JBVal.jbool false)) → ghPrivate p = true) ∧
      (ghPrivate p = false ↔ p.public = some (JBVal.jbool true)) := by
  refine ⟨?_, ?_, ?_⟩
  · intro n d priv hmem
    obtain ⟨co, fo, cr, ro, po⟩ := o
    by_cases ha : truthy p.archived <;>
      by_cases hm : projectDir p ∈ fs <;>
      cases co <;> cases fo <;> cases ro <;> cases po <;> rcases cr with e | u <;>
      simp [processProject, afterSync, ha, hm] at hmem <;>
      tauto
  · intro h
    rcases h with h | h | h <;> simp [ghPrivate, truthy, h]
  · rcases hp : p.public with _ | v
    · simp [ghPrivate, truthy, hp]
    · rcases v with _ | b
      · simp [ghPrivate, truthy, hp]
      · cases b <;> simp [ghPrivate, truthy, hp]

/-- Witness for C9: the concrete project with no `public` key is
created private. -/
theorem create_private_flag_witness :
    ghPrivate pC = true :=
  (create_private_flag gl0 [] pC oGood).2.1 (Or.inl rfl)

/-- Claim C7 counterexample: the `time.sleep(1)` sits at the end of the
loop body and every `continue` bypasses it, so a skipped project is
followed immediately by the next one.  Concretely, with an archived
project followed by an ordinary one, the trace starts directly with the
second project's clone command and contains exactly one sleep (the one
after the second, completed, project) although both projects'
processing ended. -/
theorem sleep_skipped_counterexample :
    (mainRun gl0 [] [(pArch, oGood), (pC, oGood)]).1 =
        [ProjResult.skipped SkipReason.archived, ProjResult.completed] ∧
      (mainRun gl0 [] [(pArch, oGood), (pC, oGood)]).2.1.head? =
        some (Action.cloneCmd pC.http_url_to_repo (projectDir pC)) ∧
      (mainRun gl0 [] [(pArch, oGood), (pC, oGood)]).2.1.count (Action.sleep 1) = 1 := by
  decide

/-- Claim C7 (amended): the orchestrator pauses one second exactly
after a project that completed every step; a project skipped for any
reason emits no pause, and the next project begins immediately. -/
theorem sleep_only_after_completed (gl : String) (fs : List String) (p : Project)
    (o : StepOut) :
    ((processProject gl fs p o).1 = ProjResult.completed ↔
      Action.sleep 1 ∈ (processProject gl fs p o).2.1) := by
  obtain ⟨co, fo, cr, ro, po⟩ := o
  by_cases ha : truthy p.archived <;>
    by_cases hm : projectDir p ∈ fs <;>
    cases co <;> cases fo <;> cases ro <;> cases po <;> rcases cr with e | u <;>
    simp [processProject, afterSync, ha, hm]

/-- Witness for the amended C7 at a concrete completed project. -/
theorem sleep_only_after_completed_witness :
    ((processProject gl0 [] pC oGood).1 = ProjResult.completed ↔
      Action.sleep 1 ∈ (processProject gl0 [] pC oGood).2.1) :=
  sleep_only_after_completed gl0 [] pC oGood

/-! ## Failure isolation -/

theorem processProject_fst_congr (gl : String) (fs fs2 : List String) (p : Project)
    (o : StepOut) (h : (projectDir p ∈ fs) ↔ (projectDir p ∈ fs2)) :
    (processProject gl fs p o).1 = (processProject gl fs2 p o).1 := by
  obtain ⟨co, fo, cr, ro, po⟩ := o
  by_cases ha : truthy p.archived
  · simp [processProject, ha]
  · by_cases hm : projectDir p ∈ fs
    · have hm2 : projectDir p ∈ fs2 := h.mp hm
      cases co <;> cases fo <;> simp [processProject, ha, hm, hm2]
    · have hm2 : projectDir p ∉ fs2 := fun hx => hm (h.mpr hx)
      cases co <;> cases fo <;> simp [processProject, ha, hm, hm2]

theorem processProject_fs_out (gl : String) (fs : List String) (p : Project)
    (o : StepOut) :
    (processProject gl fs p o).2.2 = fs ∨
      (processProject gl fs p o).2.2 = projectDir p :: fs := by
  obtain ⟨co, fo, cr, ro, po⟩ := o
  by_cases ha : truthy p.archived
  · left; simp [processProject, ha]
  · by_cases hm : projectDir p ∈ fs
    · left; cases fo <;> simp [processProject, ha, hm]
    · cases co
      · left; simp [processProject, ha, hm]
      · right; simp [processProject, ha, hm]

theorem mainLoop_results (gl : String) :
    ∀ (ps : List (Project × StepOut)) (fs fs0 : List String),
      (∀ q ∈ ps, ((projectDir q.1 ∈ fs) ↔ (projectDir q.1 ∈ fs0))) →
      (ps.map (fun q => projectDir q.1)).Nodup →
      (mainLoop gl fs ps).1 = ps.map (fun q => (processProject gl fs0 q.1 q.2).1) := by
  intro ps
  induction ps with
  | nil =>
    intro fs fs0 _ _
    rfl
  | cons q rest ih =>
    intro fs fs0 hmem hnd
    obtain ⟨p, o⟩ := q
    rw [List.map_cons] at hnd
    have hnd' := List.nodup_cons.mp hnd
    have hhead := processProject_fst_congr gl fs fs0 p o
      (hmem (p, o) (List.mem_cons_self _ _))
    have hfs := processProject_fs_out gl fs p o
    have htail : ∀ q ∈ rest,
        ((projectDir q.1 ∈ (processProject gl fs p o).2.2) ↔ (projectDir q.1 ∈ fs0)) := by
      intro q hq
      have hq0 := hmem q (List.mem_cons_of_mem _ hq)
      rcases hfs with hflat | hcons
      · rw [hflat]; exact hq0
      · rw [hcons]
        constructor
        · intro hx
          rcases List.mem_cons.mp hx with he | hx'
          · exfalso
            apply hnd'.1
            rw [← he]
            exact List.mem_map_of_mem _ hq
          · exact hq0.mp hx'
        · intro hx
          exact List.mem_cons_of_mem _ (hq0.mpr hx)
    show (processProject gl fs p o).1 ::
        (mainLoop gl (processProject gl fs p o).2.2 rest).1 = _
    rw [List.map_cons, hhead, ih (processProject gl fs p o).2.2 fs0 htail hnd'.2]

/-- Claim C3 counterexample: two distinct full paths (`a/b__c` and
`a__b/c`) map to the same local mirror directory, so one project's
clone outcome changes the other's processing.  With identical inputs
for project `pB`, `pA` succeeding makes `pB` fetch (and skip on the
fetch failure), while `pA` failing its clone makes `pB` clone afresh
and complete — `pA`'s failure changed `pB`'s result, contradicting
isolation as stated. -/
theorem isolation_counterexample :
    (mainRun gl0 [] [(pA, oGood), (pB, oFetchFail)]).1 =
        [ProjResult.completed, ProjResult.skipped SkipReason.fetchError] ∧
      (mainRun gl0 [] [(pA, oBadClone), (pB, oFetchFail)]).1 =
        [ProjResult.skipped SkipReason.cloneError, ProjResult.completed] := by
  decide

/-- Claim C3 (amended): the run always exits with status 0, and —
provided no two projects' full paths map to the same local mirror
directory name — each project's terminal state is a function of its own
descriptor, its own step outcomes and the initial directory set alone,
so any single project's failure leaves every other project's processing
unchanged and only the failing project is skipped. -/
theorem main_failure_isolation (gl : String) (fs0 : List String)
    (ps : List (Project × StepOut)) :
    (mainRun gl fs0 ps).2.2 = 0 ∧
      ((ps.map (fun q => projectDir q.1)).Nodup →
        (mainRun gl fs0 ps).1 =
          ps.map (fun q => (processProject gl fs0 q.1 q.2).1)) := by
  refine ⟨rfl, fun hnd => ?_⟩
  exact mainLoop_results gl ps fs0 fs0 (fun q _ => Iff.rfl) hnd

/-- Witness for the amended C3 on a concrete two-project run with
distinct directory names. -/
theorem main_failure_isolation_witness :
    (mainRun gl0 [] [(pArch, oGood), (pC, oGood)]).2.2 = 0 ∧
      (mainRun gl0 [] [(pArch, oGood), (pC, oGood)]).1 =
        [(processProject gl0 [] pArch oGood).1, (processProject gl0 [] pC oGood).1] := by
  have h := main_failure_isolation gl0 [] [(pArch, oGood), (pC, oGood)]
  exact ⟨h.1, h.2 (by decide)⟩

/-! ## Local directory naming -/

theorem encSlash_flat_inj : ∀ (s t : List Char), '_' ∉ s → '_' ∉ t →
    s.flatMap encSlash = t.flatMap encSlash → s = t := by
  intro s
  induction s with
  | nil =>
    intro t _ _ h
    cases t with
    | nil => rfl
    | cons b t' =>
      exfalso
      rw [List.flatMap_nil, List.flatMap_cons] at h
      by_cases hb : b = '/' <;> simp [encSlash, hb] at h
  | cons a s' ih =>
    intro t hs ht h
    cases t with
    | nil =>
      exfalso
      rw [List.flatMap_cons, List.flatMap_nil] at h
      by_cases ha : a = '/' <;> simp [encSlash, ha] at h
    | cons b t' =>
      have hs' : '_' ∉ s' := fun hx => hs (List.mem_cons_of_mem _ hx)
      have ht' : '_' ∉ t' := fun hx => ht (List.mem_cons_of_mem _ hx)
      have hau : a ≠ '_' := fun he => hs (by rw [← he]; exact List.mem_cons_self a s')
      have hbu : b ≠ '_' := fun he => ht (by rw [← he]; exact List.mem_cons_self b t')
      rw [List.flatMap_cons, List.flatMap_cons] at h
      by_cases ha : a = '/'
      · by_cases hb : b = '/'
        · subst ha; subst hb
          rw [ih t' hs' ht' (by simpa [encSlash] using h)]
        · exfalso
          simp [encSlash, ha, hb] at h
          exact hbu h.1.symm
      · by_cases hb : b = '/'
        · exfalso
          simp [encSlash, ha, hb] at h
          exact hau h.1
        · simp [encSlash, ha, hb] at h
          rw [h.1, ih t' hs' ht' h.2]

/-- Claim C5 counterexample: the naming function is not
collision-resistant.  The distinct full namespace paths `a/b__c` and
`a__b/c` map to the same flat directory name `a__b__c.git`. -/
theorem localDirName_collision :
    localDirName "a/b__c" = localDirName "a__b/c" ∧
      ("a/b__c" : String) ≠ "a__b/c" := by
  decide

/-- Claim C5 (amended): the directory-naming function is deterministic
and flat — its output contains no `/` — but it is injective only on
paths containing no underscore; in general distinct paths may collide
(see the counterexample). -/
theorem localDirName_flat_inj :
    (∀ s : String, '/' ∉ (localDirName s).data) ∧
      (∀ s t : String, '_' ∉ s.data → '_' ∉ t.data →
        localDirName s = localDirName t → s = t) := by
  constructor
  · intro s hmem
    have hd : (localDirName s).data = s.data.flatMap encSlash ++ ".git".data := by
      unfold localDirName replaceSlash
      rw [String.data_append]
    rw [hd] at hmem
    rcases List.mem_append.mp hmem with hin | hin
    · rcases List.mem_flatMap.mp hin with ⟨a, _, hina⟩
      by_cases hac : a = '/'
      · simp [encSlash, hac] at hina
      · simp [encSlash, hac] at hina
        exact hac hina.symm
    · have hng : '/' ∉ ".git".data := by decide
      exact hng hin
  · intro s t hs ht heq
    have hdata := congrArg String.data heq
    unfold localDirName at hdata
    rw [String.data_append, String.data_append] at hdata
    have hcancel : (replaceSlash s).data = (replaceSlash t).data :=
      List.append_inj_left' hdata rfl
    have hflat : s.data.flatMap encSlash = t.data.flatMap encSlash := hcancel
    exact String.ext (encSlash_flat_inj s.data t.data hs ht hflat)

/-- Witness for the amended C5: a concrete flat output, and injectivity
applied at an underscore-free path. -/
theorem localDirName_flat_inj_witness :
    '/' ∉ (localDirName "a/b").data ∧ ("ab" : String) = "ab" :=
  ⟨localDirName_flat_inj.1 "a/b",
    localDirName_flat_inj.2 "ab" "ab" (by decide) (by decide) rfl⟩

end Migrator
